import Mathlib

/-!
Verification of the spacetime-crawler4py core.

A shallow embedding of the crawler's core (the `scraper.py` admission filter,
trap detector and duplicate detector, and the `frontier.py` URL scheduler),
with theorems settling the specification claims about it.

Strings are manipulated as `List Char`; machine integers are `Nat`/`Int`
with explicit masking where the source masks.  Fallible stdlib operations
(`urlparse`, `int(...)`) are modelled with `Except`/`Option` so that the
source's `try/except` structure is visible.
-/

set_option autoImplicit false

namespace Crawler

/-! ## Character classes and generic list-of-char helpers -/

/-- The characters Python's `str.split()` / `str.strip()` treat as whitespace
(limited to the ASCII ones; the crawler only meets ASCII pages and URLs). -/
def isPySpace (c : Char) : Bool :=
  c = ' ' || c.toNat = 9 || c.toNat = 10 || c.toNat = 11 || c.toNat = 12 || c.toNat = 13

def isAsciiAlpha (c : Char) : Bool :=
  ('a' ≤ c && c ≤ 'z') || ('A' ≤ c && c ≤ 'Z')

def isAsciiDigit (c : Char) : Bool :=
  '0' ≤ c && c ≤ '9'

/-- Whether `hay` contains `pat` as a contiguous substring (Python's `in` on `str`). -/
def containsSub (hay pat : List Char) : Bool :=
  match hay with
  | [] => pat.isEmpty
  | _ :: t => pat.isPrefixOf hay || containsSub t pat

/-- Python `str.split(sep)` for a one-character separator: keeps empty pieces. -/
def splitChar (sep : Char) : List Char → List (List Char)
  | [] => [[]]
  | c :: t =>
    let r := splitChar sep t
    if c = sep then [] :: r
    else
      match r with
      | [] => [[c]]
      | h :: t2 => (c :: h) :: t2

/-- Python `str.split()` with no argument: split on whitespace runs, no empties.
`acc` is the current word being built, reversed. -/
def pySplitAux (acc : List Char) : List Char → List (List Char)
  | [] => if acc.isEmpty then [] else [acc.reverse]
  | c :: t =>
    if isPySpace c then
      if acc.isEmpty then pySplitAux [] t else acc.reverse :: pySplitAux [] t
    else pySplitAux (c :: acc) t

def pySplit (l : List Char) : List (List Char) := pySplitAux [] l

/-- Python `str.strip()`: drop leading and trailing whitespace. -/
def pyStrip (l : List Char) : List Char :=
  ((l.dropWhile isPySpace).reverse.dropWhile isPySpace).reverse

def lowerL (l : List Char) : List Char := l.map Char.toLower

/-- Stable insertion sort on `List Char` keys by code point, matching Python's
`sorted` on strings. -/
def lexLe : List Char → List Char → Bool
  | [], _ => true
  | _ :: _, [] => false
  | a :: as, b :: bs => if a = b then lexLe as bs else decide (a < b)

def insortKey (x : List Char) : List (List Char) → List (List Char)
  | [] => [x]
  | y :: t => if lexLe x y then x :: y :: t else y :: insortKey x t

def sortKeys : List (List Char) → List (List Char)
  | [] => []
  | x :: t => insortKey x (sortKeys t)

/-- The `sep`-join of a list of strings (Python `'&'.join(...)`). -/
def joinWith (sep : Char) : List (List Char) → List Char
  | [] => []
  | [x] => x
  | x :: y :: t => x ++ sep :: joinWith sep (y :: t)

/-- Python `int(s)`: optional surrounding whitespace, optional sign, a
non-empty digit run (digit-group underscores are not modelled; the crawler
only meets plain decimal query values). -/
def pyIntDigits : List Char → Option Int
  | [] => none
  | l =>
    if l.all isAsciiDigit then
      some (Int.ofNat (l.foldl (fun n c => n * 10 + (c.toNat - '0'.toNat)) 0))
    else none

def pyInt (l : List Char) : Option Int :=
  let s := pyStrip l
  match s with
  | '+' :: t => pyIntDigits t
  | '-' :: t => (pyIntDigits t).map (fun n => -n)
  | t => pyIntDigits t

/-! ## Association-list models of Python `dict` / `defaultdict` -/

section Assoc
variable {κ : Type} {α : Type} [DecidableEq κ]

def lookupA : List (κ × α) → κ → Option α
  | [], _ => none
  | p :: t, k => if p.1 = k then some p.2 else lookupA t k

/-- Assignment `m[k] = v`: replace the first binding of `k`, or append a new one
(Python dicts keep insertion order and append new keys at the end). -/
def setA : List (κ × α) → κ → α → List (κ × α)
  | [], k, v => [(k, v)]
  | p :: t, k, v => if p.1 = k then (k, v) :: t else p :: setA t k v

/-- The `defaultdict(int)` increment `m[k] += 1`. -/
def bumpA : List (κ × Nat) → κ → List (κ × Nat)
  | [], k => [(k, 1)]
  | p :: t, k => if p.1 = k then (p.1, p.2 + 1) :: t else p :: bumpA t k

def countA (m : List (κ × Nat)) (k : κ) : Nat := (lookupA m k).getD 0

end Assoc

/-! ## `urllib.parse.urlparse` (the fragment used by the crawler)

Python's `urlsplit` raises `ValueError` on a netloc with an unmatched
square bracket; that is the one raise the crawler's `try/except` blocks can
actually see, so it is the one error the model produces. -/

inductive PyErr | valueError

structure ParsedUrl where
  scheme : List Char
  netloc : List Char
  path : List Char
  query : List Char
  fragment : List Char

def schemeCharOk (c : Char) : Bool :=
  isAsciiAlpha c || isAsciiDigit c || c = '+' || c = '-' || c = '.'

/-- Split off `scheme:` when the prefix before the first `:` is a valid
scheme (non-empty, letter first, then letters/digits/`+`/`-`/`.`). -/
def splitScheme (l : List Char) : List Char × List Char :=
  let pre := l.takeWhile (· ≠ ':')
  if pre.length < l.length then
    -- a ':' is present
    match pre with
    | [] => ([], l)
    | c :: t =>
      if isAsciiAlpha c && t.all schemeCharOk then
        (lowerL pre, l.drop (pre.length + 1))
      else ([], l)
  else ([], l)

def splitFirst (sep : Char) (l : List Char) : List Char × List Char :=
  let pre := l.takeWhile (· ≠ sep)
  (pre, l.drop (pre.length + 1))

def urlparseE (url : List Char) : Except PyErr ParsedUrl :=
  let (scheme, rest) := splitScheme url
  let (netloc, rest) :=
    match rest with
    | '/' :: '/' :: r =>
      let n := r.takeWhile (fun c => c ≠ '/' && c ≠ '?' && c ≠ '#')
      (n, r.drop n.length)
    | r => ([], r)
  if (netloc.contains '[' && !netloc.contains ']')
      || (netloc.contains ']' && !netloc.contains '[') then
    .error .valueError
  else
    let (rest, frag) :=
      if rest.contains '#' then splitFirst '#' rest else (rest, [])
    let (path, query) :=
      if rest.contains '?' then splitFirst '?' rest else (rest, [])
    .ok ⟨scheme, netloc, path, query, frag⟩

/-! ## `scraper.py`: configuration constants -/

def VALID_DOMAINS : List (List Char) :=
  ["ics.uci.edu".data, "cs.uci.edu".data, "informatics.uci.edu".data, "stat.uci.edu".data]

def MAX_CONTENT_SIZE : Nat := 5 * 1024 * 1024
def MIN_WORD_COUNT : Nat := 50
def MAX_PATH_DEPTH : Nat := 12
def MAX_URL_LENGTH : Nat := 600
def SIMHASH_THRESHOLD : Nat := 10
def SIMHASH_WINDOW : Nat := 1000

def INVALID_EXTENSIONS : List (List Char) :=
  (["pdf", "doc", "docx", "ppt", "pptx", "xls", "xlsx",
    "txt", "rtf", "odt", "ods", "odp",
    "zip", "rar", "tar", "gz", "7z", "bz2",
    "jpg", "jpeg", "png", "gif", "bmp", "svg", "ico", "webp",
    "mp4", "avi", "mov", "mpg", "mpeg", "flv",
    "mp3", "wav", "wma", "aac",
    "css", "js", "json", "xml", "rss", "atom", "csv",
    "lif", "mat", "dat", "rdata", "rds",
    "arff", "weka", "sav", "pkl", "pickle",
    "log", "bak", "tmp"] : List String).map String.data

def ALLOWED_EXTENSIONS : List (List Char) :=
  (["html", "htm", "php", "asp", "aspx", "jsp", "shtml", "xhtml"] : List String).map String.data

/-! ## `scraper.py`: URL pattern checks

Each regex in the source's pattern lists is either a literal substring, a
character class `[?&]x`, an optional letter `s?`, or an anchored suffix; each
is transcribed here as the Boolean match function of that regex, exactly as
written in the source.  Note that the source writes `r'/\\.ics$'` and
`r'/\\d{4}/\\d{2}/\\d{2}'` with a double backslash inside a raw string, so
those two regexes match a literal backslash followed by `.`/`d` characters,
not a dot or digits. -/

/-- Matching `re.search(p, url.lower())` over `CALENDAR_PATTERNS`. -/
def isCalendarOrEvent (url : List Char) : Bool :=
  let u := lowerL url
  containsSub u "/calendar".data
  || containsSub u "/events/".data || containsSub u "/event/".data
  || containsSub u "/event-calendar".data
  || containsSub u "/ical".data
  -- r'/\\.ics$' : "/", a literal backslash, any one character, "ics", end
  || (match u.reverse with
      | 's' :: 'c' :: 'i' :: _ :: '\\' :: '/' :: _ => true
      | _ => false)
  || containsSub u "?calendar".data || containsSub u "&calendar".data
  || containsSub u "?event".data || containsSub u "&event".data
  || containsSub u "?date=".data || containsSub u "&date=".data
  || containsSub u "?month=".data || containsSub u "&month=".data
  || containsSub u "?year=".data || containsSub u "&year=".data
  -- r'/\\d{4}/\\d{2}/\\d{2}' : the literal string "/\dddd/\dd/\dd"
  || containsSub u "/\\dddd/\\dd/\\dd".data

/-- Matching `re.search(p, url.lower())` over `TRAP_PATTERNS` (all literals). -/
def isKnownTrap (url : List Char) : Bool :=
  let u := lowerL url
  (["/wp-admin", "/wp-login", "/login", "/logout",
    "/signin", "/signout", "/register", "/signup",
    "/user/", "/account", "/profile", "/dashboard", "/admin"] : List String).any
    (fun p => containsSub u p.data)

/-- Matching `re.search(p, url.lower())` over `LEGITIMATE_PATTERNS`
(`/courses?/`, `/projects?/`, `/publications?/` have an optional `s`). -/
def isLegitimateKind (url : List Char) : Bool :=
  let u := lowerL url
  containsSub u "/wiki/".data || containsSub u "/archive/".data
  || containsSub u "/docs/".data || containsSub u "/pub/".data
  || containsSub u "/repository/".data || containsSub u "/faculty/".data
  || containsSub u "/courses/".data || containsSub u "/course/".data
  || containsSub u "/research/".data
  || containsSub u "/projects/".data || containsSub u "/project/".data
  || containsSub u "/publications/".data || containsSub u "/publication/".data

/-! ## `urllib.parse.parse_qs` (as used: keys and first values) -/

/-- One `name=value` piece: kept only when an `=` is present and the value is
non-empty (`keep_blank_values=False`); percent-decoding is not modelled, the
crawler only inspects plain keys and decimal values. -/
def qsPair (piece : List Char) : Option (List Char × List Char) :=
  if piece.contains '=' then
    let (k, v) := splitFirst '=' piece
    if v.isEmpty then none else some (k, v)
  else none

def parseQsl (q : List Char) : List (List Char × List Char) :=
  (splitChar '&' q).filterMap qsPair

/-- Aggregates repeated keys in order of first appearance, values in order. -/
def parseQs (q : List Char) : List (List Char × List (List Char)) :=
  (parseQsl q).foldl
    (fun m p =>
      match lookupA m p.1 with
      | some vs => setA m p.1 (vs ++ [p.2])
      | none => m ++ [(p.1, [p.2])])
    []

/-! ## `scraper.py`: `get_url_pattern` -/

/-- The substitution `re.sub(r'\\d+', 'N', path)`: the raw string `r'\\d+'` is the regex
`\\d+`, which matches one literal backslash followed by one or more `d`
characters; each such match is replaced by `N`.  (It does NOT match digits.)
The `inRun` flag is true while consuming the `d`-run of a current match. -/
def subBackslashD : Bool → List Char → List Char
  | _, [] => []
  | true, 'd' :: t => subBackslashD true t
  | _, '\\' :: 'd' :: t => 'N' :: subBackslashD true t
  | _, c :: t => c :: subBackslashD false t

/-- A `re.sub` for a pattern that is a literal string: replace each
non-overlapping leftmost occurrence.  Fuel is the length of the haystack. -/
def replaceLitAux (pat rep : List Char) : Nat → List Char → List Char
  | _, [] => []
  | 0, l => l
  | fuel + 1, c :: t =>
    if !pat.isEmpty && pat.isPrefixOf (c :: t) then
      rep ++ replaceLitAux pat rep fuel ((c :: t).drop pat.length)
    else c :: replaceLitAux pat rep fuel t

def replaceLit (pat rep l : List Char) : List Char :=
  replaceLitAux pat rep l.length l

/-- The function `get_url_pattern(url)`.  In it, `re.sub(r'\\d{4}-\\d{2}-\\d{2}', 'DATE', path)`
is the literal string `\dddd-\dd-\dd` (again a double-escaped backslash). -/
def getUrlPattern (url : List Char) : List Char :=
  match urlparseE url with
  | .error _ => url
  | .ok p =>
    let path := subBackslashD false p.path
    let path := replaceLit "\\dddd-\\dd-\\dd".data "DATE".data path
    if isLegitimateKind url then p.netloc ++ path
    else
      let queryKeys :=
        if p.query.isEmpty then []
        else joinWith '&' (sortKeys ((parseQs p.query).map Prod.fst))
      p.netloc ++ path ++ '?' :: queryKeys

/-! ## `scraper.py`: mutable module state touched by `is_valid` -/

structure ScraperSt where
  urlPatternCounter : List (List Char × Nat)
  domainPathCounter : List ((List Char × List Char) × Nat)
  rejectionStats : List (List Char × Nat)
  rejectionSamples : List (List Char × List (List Char))

def initScraperSt : ScraperSt := ⟨[], [], [], []⟩

/-- The function `log_rejection(reason, url, save_sample)`. -/
def logRejection (st : ScraperSt) (reason url : List Char) (saveSample : Bool) : ScraperSt :=
  let samples := (lookupA st.rejectionSamples reason).getD []
  { st with
    rejectionStats := bumpA st.rejectionStats reason
    rejectionSamples :=
      if saveSample && samples.length < 5 then
        setA st.rejectionSamples reason (samples ++ [url])
      else st.rejectionSamples }

/-! ## `scraper.py`: `is_url_trap` -/

/-- The pagination loop: the first of `page`,`p`,`offset`,`start` present in
the query with an integer value `> 200` returns `True`; `ValueError` /
`IndexError` are swallowed and the loop continues. -/
def paginationTrap (qp : List (List Char × List (List Char))) : Bool :=
  (["page", "p", "offset", "start"] : List String).any fun param =>
    match lookupA qp param.data with
    | some (v :: _) =>
      match pyInt v with
      | some n => decide (n > 200)
      | none => false
    | some [] => false
    | none => false

/-- The function `is_url_trap(url)`: returns the verdict and the updated counters.  Its
`try/except` returns `False` on any internal raise; the only reachable raise
is `urlparse`, which happens before any counter mutation. -/
def isUrlTrap (st : ScraperSt) (url : List Char) : Bool × ScraperSt :=
  match urlparseE url with
  | .error _ => (false, st)
  | .ok parsed =>
    let pathParts := (splitChar '/' parsed.path).filter (fun p => !p.isEmpty)
    let legit := isLegitimateKind url
    -- 1. path depth
    let maxDepth := if legit then 15 else MAX_PATH_DEPTH
    if pathParts.length > maxDepth then (true, st)
    -- 2. repeating segments
    else if !legit && pathParts.any (fun seg => pathParts.count seg > 3) then (true, st)
    else
      -- 3. pattern frequency (the counter is bumped before the test)
      let patt := getUrlPattern url
      let st := { st with urlPatternCounter := bumpA st.urlPatternCounter patt }
      let maxRepeats := if legit then 150 else 75
      if countA st.urlPatternCounter patt > maxRepeats then (true, st)
      -- 4. pagination
      else if !parsed.query.isEmpty && paginationTrap (parseQs parsed.query) then (true, st)
      -- 5. query length
      else if parsed.query.length > 200 then (true, st)
      -- 6. filter combinations
      else if !parsed.query.isEmpty &&
          ((["sort", "order", "filter", "view", "display"] : List String).countP
            (fun p => containsSub (lowerL parsed.query) p.data)) ≥ 4 then (true, st)
      else
        -- 7. same path repeats (bumped before the test)
        let st := { st with
          domainPathCounter := bumpA st.domainPathCounter (parsed.netloc, parsed.path) }
        let maxSame := if legit then 25 else 15
        if countA st.domainPathCounter (parsed.netloc, parsed.path) > maxSame then (true, st)
        else (false, st)

/-! ## `scraper.py`: `is_valid` -/

def BLOCKED_DOMAINS : List (List Char) :=
  (["physics.uci.edu", "economics.uci.edu", "chem.uci.edu",
    "bio.uci.edu", "math.uci.edu", "engineering.uci.edu",
    "cecs.uci.edu", "eecs.uci.edu", "nacs.uci.edu"] : List String).map String.data

def domainMatches (netloc d : List Char) : Bool :=
  netloc = d || ('.' :: d).isSuffixOf netloc

/-- The extension of `path_lower`: `path_lower.rsplit('.', 1)[1]` truncated at
the first `/` and the first `?` — i.e. the text after the last dot. -/
def extOf (pathLower : List Char) : List Char :=
  let afterDot := (pathLower.reverse.takeWhile (· ≠ '.')).reverse
  (afterDot.takeWhile (· ≠ '/')).takeWhile (· ≠ '?')

/-- The checks of `is_valid` after `urlparse` has succeeded.  Everything
past that point is raise-free in the source (`is_url_trap` and
`get_url_pattern` catch their own exceptions), so this part is pure. -/
def isValidBody (st : ScraperSt) (url : List Char) (parsed : ParsedUrl) :
    Bool × ScraperSt :=
  -- 1. scheme
  if !(parsed.scheme = "http".data || parsed.scheme = "https".data) then
    (false, logRejection st "bad_scheme".data url false)
  else
  -- 2. domain
  let netloc := lowerL parsed.netloc
  if !VALID_DOMAINS.any (domainMatches netloc) then
    (false, logRejection st "bad_domain".data url false)
  else
  -- 3. blocked domains
  if BLOCKED_DOMAINS.any (domainMatches netloc) then
    (false, logRejection st "blocked_domain".data url false)
  else
  -- 4. URL length
  if url.length > MAX_URL_LENGTH then
    (false, logRejection st "url_too_long".data url false)
  else
  -- 5. calendar / events
  if isCalendarOrEvent url then
    (false, logRejection st "calendar_event".data url true)
  else
  -- 6. known traps
  if isKnownTrap url then
    (false, logRejection st "known_trap".data url true)
  else
  -- 7. dynamic traps
  let (trap, st) := isUrlTrap st url
  if trap then
    (false, logRejection st "url_trap".data url false)
  else
  let pathLower := lowerL parsed.path
  -- 8. file extensions
  if pathLower.contains '.' &&
      (let ext := extOf pathLower
       !ext.isEmpty && !ALLOWED_EXTENSIONS.contains ext
         && INVALID_EXTENSIONS.contains ext) then
    (false, logRejection st ("ext_".data ++ extOf pathLower) url false)
  else
  -- 9. format parameters
  if !parsed.query.isEmpty &&
      (["format=txt", "format=pdf", "format=csv",
        "export=txt", "export=pdf", "download="] : List String).any
        (fun b => containsSub (lowerL parsed.query) b.data) then
    (false, logRejection st "format_param".data url false)
  else
  -- 10. action endpoints
  if (["/search?", "?search=", "/print/", "?print="] : List String).any
      (fun x => containsSub (lowerL url) x.data) then
    (false, logRejection st "action".data url false)
  else (true, st)

/-- The body of `is_valid` inside its `try:`; an `Except.error` stands for
an exception escaping to the outer `except`.  The only raise the body can
see is `urlparse`, on its first line. -/
def isValidE (st : ScraperSt) (url : List Char) :
    Except PyErr (Bool × ScraperSt) :=
  (urlparseE url).map (isValidBody st url)

/-- The function `is_valid(url)`: the body with its `except Exception: return False`.
The only reachable raise (`urlparse`) happens before any state mutation, so
the caught path leaves the module state as it was. -/
def isValid (st : ScraperSt) (url : List Char) : Bool × ScraperSt :=
  match isValidE st url with
  | .ok r => r
  | .error _ => (false, st)

/-- The function `is_valid` applied to a `String` URL. -/
def isValidS (st : ScraperSt) (url : String) : Bool × ScraperSt :=
  isValid st url.data

/-- A list comprehension `[link for link in links if is_valid(link)]`:
`is_valid` is called on each link in order, threading the module state. -/
def filterValid (st : ScraperSt) : List String → List String × ScraperSt
  | [] => ([], st)
  | l :: t =>
    match isValidS st l with
    | (true, st') => let (keep, st'') := filterValid st' t; (l :: keep, st'')
    | (false, st') => filterValid st' t

/-! ## `scraper.py`: duplicate detection

`hashlib.md5(...).hexdigest()` on the page text and `md5(url)` are digests of
an external library; the spec treats digest equality as text equality
("MD5 for exact equality", "collisions are treated as equality"), so the
digest is modelled as the string itself, keeping the set/membership structure
of the source intact.  Python's builtin `hash` is seeded per process (the
spec flags it as non-deterministic), so it is a parameter `pyHash`. -/

def md5Hex (s : String) : String := s

/-- Python's `bin(h1 ^ h2).count('1')` for the 64-bit values the detector produces:
popcount of the XOR, computed over 64 binary digits. -/
def popcount64 : Nat → Nat → Nat
  | 0, _ => 0
  | fuel + 1, n => n % 2 + popcount64 fuel (n / 2)

def hammingDistance (h1 h2 : Nat) : Nat := popcount64 64 (h1 ^^^ h2)

def U64MASK : Nat := 2 ^ 64 - 1

/-- Python's `range(start, stop, step)` for `step ≥ 1`, by fuel. -/
def rangeStepAux (start step : Nat) : Nat → Nat → List Nat
  | 0, _ => []
  | fuel + 1, stop => if start < stop then start :: rangeStepAux (start + step) step fuel stop else []

def rangeStep (start stop step : Nat) : List Nat := rangeStepAux start step stop stop

/-- The shingle `' '.join(words[i:i+3])`. -/
def shingleAt (words : List (List Char)) (i : Nat) : List Char :=
  joinWith ' ' ((words.drop i).take 3)

/-- The function `compute_simhash(text, hash_bits=64)`.  `pyHash` models the builtin
`hash` (its value is masked to 64 bits exactly as in the source). -/
def computeSimhash (pyHash : List Char → Nat) (text : List Char) : Nat :=
  let words := pySplit text
  if words.length < 3 then pyHash text &&& U64MASK
  else
    let shingles :=
      if words.length > 500 then
        let step := words.length / 250
        (rangeStep 0 (words.length - 2) step).map (shingleAt words)
      else (List.range (words.length - 2)).map (shingleAt words)
    if shingles.isEmpty then 0
    else
      let hashes := shingles.map (fun s => pyHash s &&& U64MASK)
      let vote (i : Nat) : Int :=
        hashes.foldl (fun v h => if h.testBit i then v + 1 else v - 1) 0
      (List.range 64).foldl (fun fp i => if vote i > 0 then fp ||| (1 <<< i) else fp) 0

/-- The mutable module state of the duplicate detector. -/
structure DupSt where
  seenExactHashes : List String
  seenSimhashes : List (Nat × String)
  duplicatesFound : Nat

def initDupSt : DupSt := ⟨[], [], 0⟩

/-- Python's `deque(maxlen=SIMHASH_WINDOW).append`: when full, the oldest (leftmost)
entry is discarded. -/
def ringAppend (ring : List (Nat × String)) (e : Nat × String) : List (Nat × String) :=
  if ring.length < SIMHASH_WINDOW then ring ++ [e] else ring.tail ++ [e]

/-- The function `is_duplicate(text_content, url)`. -/
def isDuplicate (pyHash : List Char → Nat) (st : DupSt) (text url : String) :
    (Bool × Option String) × DupSt :=
  if text.data.isEmpty || (pyStrip text.data).length < 100 then
    ((true, some "too_short"), st)
  else
    let contentHash := md5Hex text
    if st.seenExactHashes.contains contentHash then
      ((true, some "exact"), { st with duplicatesFound := st.duplicatesFound + 1 })
    else
      let st := { st with seenExactHashes := st.seenExactHashes ++ [contentHash] }
      let contentSimhash := computeSimhash pyHash text.data
      if st.seenSimhashes.any (fun p => hammingDistance contentSimhash p.1 ≤ SIMHASH_THRESHOLD) then
        ((true, some "similar"), { st with duplicatesFound := st.duplicatesFound + 1 })
      else
        ((false, none), { st with seenSimhashes := ringAppend st.seenSimhashes (contentSimhash, url) })

/-! ## `scraper.py`: text extraction and the scraper pipeline

HTML parsing is an external collaborator (BeautifulSoup): the decomposition
of `script/style/meta/link/noscript/header/footer/nav` subtrees and
`soup.get_text(separator=' ', strip=True)` are modelled as a parameter
`getText` mapping the response body to the collected text.  The repository's
own post-processing of that text — `re.sub(r's+', ' ', text).strip()` — is
embedded exactly: the regex `r's+'` matches runs of the letter `s`
(not whitespace; the backslash is missing in the source). -/

/-- The substitution `re.sub(r's+', ' ', text)`: each maximal run of the character `s` is
replaced by one space.  `inRun` is true just after an `s` was consumed. -/
def subSRuns : Bool → List Char → List Char
  | _, [] => []
  | true, 's' :: t => subSRuns true t
  | false, 's' :: t => ' ' :: subSRuns true t
  | _, c :: t => c :: subSRuns false t

/-- The pure tail of `extract_text_content_from_soup`, applied to the text
collected from the soup:  `re.sub(r's+', ' ', text).strip()`. -/
def extractTextContent (collected : String) : String :=
  String.mk (pyStrip (subSRuns false collected.data))

/-- A record written by `save_page_data` (the JSON fields, minus the file
system): `{url, word_count, words[:1000], content_hash}`. -/
structure SavedPage where
  url : String
  wordCount : Nat
  words : List String
  contentHash : String

/-- A `log_processing` entry (without the wall-clock timestamp). -/
structure LogEntry where
  url : String
  status : String
  reason : String
  linksFound : Nat

/-- The mutable state the scraper pipeline touches. -/
structure ScrSt where
  pagesProcessed : Nat
  pagesSaved : Nat
  linksDiscovered : Nat
  dup : DupSt
  scr : ScraperSt
  savedPages : List SavedPage
  processingLog : List LogEntry

def initScrSt : ScrSt := ⟨0, 0, 0, initDupSt, initScraperSt, [], []⟩

def logProcessing (st : ScrSt) (url status reason : String) (linksFound : Nat) : ScrSt :=
  { st with processingLog := st.processingLog ++ [⟨url, status, reason, linksFound⟩] }

/-- The response object `resp` with `resp.status` and `resp.raw_response.content` (the body is
kept as a string of bytes). -/
structure Resp where
  status : Nat
  content : String

/-- The function `scraper(url, resp)`.  Here `getText content` models
`BeautifulSoup(content, "lxml")` followed by the decompose/get_text calls of
`extract_text_content_from_soup`; `getLinks url content` models
`extract_next_links_from_soup(url, soup)` (both external parser work).  The
`try/except` of the source catches only parser raises, which are inside
these total parameters, so the model needs no error case. -/
def scraper (pyHash : List Char → Nat) (getText : String → String)
    (getLinks : String → String → List String)
    (st : ScrSt) (url : String) (resp : Option Resp) : List String × ScrSt :=
  let st := { st with pagesProcessed := st.pagesProcessed + 1 }
  match resp with
  | none => ([], logProcessing st url "error" "status_none" 0)
  | some r =>
    if r.status ≠ 200 then
      ([], logProcessing st url "error" ("status_" ++ toString r.status) 0)
    else
      let content := r.content
      if content.length < 100 then ([], logProcessing st url "skipped" "empty" 0)
      else if content.length > MAX_CONTENT_SIZE then
        ([], logProcessing st url "skipped" "large" 0)
      else
        let textContent := extractTextContent (getText content)
        let words := pySplit textContent.data
        if words.length < MIN_WORD_COUNT then
          ([], logProcessing st url "skipped" ("low_words_" ++ toString words.length) 0)
        else
          let ((isDup, dupReason), dup') := isDuplicate pyHash st.dup textContent url
          let st := { st with dup := dup' }
          if isDup then
            let links := getLinks url content
            let (validLinks, scr') := filterValid st.scr links
            let st := { st with
              scr := scr'
              linksDiscovered := st.linksDiscovered + validLinks.length }
            (validLinks, logProcessing st url "duplicate" (dupReason.getD "") 0)
          else
            let links := getLinks url content
            let (validLinks, scr') := filterValid st.scr links
            let st := { st with
              scr := scr'
              linksDiscovered := st.linksDiscovered + validLinks.length }
            let st :=
              if validLinks.length > 0 || words.length > 200 then
                { st with
                  savedPages := st.savedPages ++
                    [⟨url, words.length, (words.take 1000).map String.mk, md5Hex textContent⟩]
                  pagesSaved := st.pagesSaved + 1 }
              else st
            (validLinks, logProcessing st url "processed" "success" validLinks.length)

/-! ## `frontier.py`

The `utils` module (`normalize`, `get_urlhash`) is an external collaborator
not present in the repository; both are modelled from the spec (§4.1). -/

/-- Modelled from the spec: `normalize` from the missing `utils` module —
"lowercase host; strip fragment; leave path case intact" (spec §4.1).  The
fragment is cut at the first `#`; when a `//` authority is present its host
part is lowercased. -/
def normalizeUrl (url : String) : String :=
  let l := url.data.takeWhile (· ≠ '#')
  let (scheme, rest) := splitScheme l
  let pre := url.data.take (l.length - rest.length)
  match rest with
  | '/' :: '/' :: r =>
    let host := r.takeWhile (fun c => c ≠ '/' && c ≠ '?' && c ≠ '#')
    String.mk (pre ++ '/' :: '/' :: lowerL host ++ r.drop host.length)
  | _ => String.mk (scheme ++ rest)

/-- Modelled from the spec: `get_urlhash` from the missing `utils` module —
"the MD5 of the canonical string", with "collisions are treated as equality"
(spec §4.1); the digest is therefore modelled as the canonical string
itself, an injective stand-in for the 128-bit key. -/
def getUrlhash (url : String) : String := url

/-- The in-memory and durable state of `Frontier`.  `domainQueues` is the
`domain -> Queue` dict (insertion-ordered, queue front at the head),
`lastAccess` the `domain -> timestamp` dict (timestamps are rationals
standing for `time.time()` floats), `save` the shelve content
`urlhash -> (url, completed)`. -/
structure FrontierSt where
  domainQueues : List (String × List String)
  lastAccess : List (String × Rat)
  urlsSeen : List String
  save : List (String × (String × Bool))

/-- The helper `_get_domain(url)`: `urlparse(url).netloc.lower()`, `"unknown"` if
`urlparse` raises. -/
def getDomain (url : String) : String :=
  match urlparseE url.data with
  | .ok p => String.mk (lowerL p.netloc)
  | .error _ => "unknown"

/-- The helper `_add_to_domain_queue(url)`: create the queue on first use, then `put`. -/
def addToDomainQueue (dq : List (String × List String)) (url : String) :
    List (String × List String) :=
  let d := getDomain url
  match lookupA dq d with
  | some q => setA dq d (q ++ [url])
  | none => dq ++ [(d, [url])]

/-- The method `add_url(url)`. -/
def addUrl (st : FrontierSt) (url : String) : FrontierSt :=
  let url := normalizeUrl url
  let urlhash := getUrlhash url
  if url ∈ st.urlsSeen then st
  else if (lookupA st.save urlhash).isSome then st
  else
    { st with
      save := setA st.save urlhash (url, false)
      domainQueues := addToDomainQueue st.domainQueues url
      urlsSeen := st.urlsSeen ++ [url] }

/-- The method `mark_url_complete(url)` (the "have not seen it before" branch only
logs). -/
def markUrlComplete (st : FrontierSt) (url : String) : FrontierSt :=
  { st with save := setA st.save (getUrlhash url) (url, true) }

/-- The readiness test of `get_tbd_url`: a non-empty queue whose host has
cooled down for at least the politeness delay
(`time_since_last >= politeness_delay`). -/
def readyPred (delay : Rat) (st : FrontierSt) (t : Rat) (dq : String × List String) : Bool :=
  !dq.2.isEmpty && decide (delay ≤ t - ((lookupA st.lastAccess dq.1).getD 0))

/-- The method `get_tbd_url()` with the call time `t` passed explicitly, returning the
served domain together with the URL (the source's `domain, queue =
ready_domains[0]` pair).  `delay` is `config.time_delay`. -/
def getTbdUrlD (delay : Rat) (st : FrontierSt) (t : Rat) :
    Option (String × String) × FrontierSt :=
  match st.domainQueues.filter (readyPred delay st t) with
  | [] => (none, st)
  | (d, q) :: _ =>
    match q with
    | [] => (none, st)
    | u :: rest =>
      (some (d, u),
        { st with
          domainQueues := setA st.domainQueues d rest
          lastAccess := setA st.lastAccess d t })

/-- The method `get_tbd_url()` as the callers see it. -/
def getTbdUrl (delay : Rat) (st : FrontierSt) (t : Rat) : Option String × FrontierSt :=
  let (r, st') := getTbdUrlD delay st t
  (r.map Prod.snd, st')

/-- The method `_parse_save_file()`: for each stored `(url, completed)` value in order,
when `completed` is false AND `is_valid(url)` holds (short-circuit: `is_valid`
is not called on completed entries), enqueue the raw URL and add its
normalized form to `urls_seen`.  The `is_valid` module state is threaded. -/
def parseStep (acc : FrontierSt × ScraperSt) (v : String × Bool) : FrontierSt × ScraperSt :=
  if v.2 then acc
  else
    match isValidS acc.2 v.1 with
    | (true, sst') =>
      ({ acc.1 with
         domainQueues := addToDomainQueue acc.1.domainQueues v.1
         urlsSeen :=
           if normalizeUrl v.1 ∈ acc.1.urlsSeen then acc.1.urlsSeen
           else acc.1.urlsSeen ++ [normalizeUrl v.1] }, sst')
    | (false, sst') => (acc.1, sst')

def parseSaveFile (st : FrontierSt) (sst : ScraperSt) : FrontierSt × ScraperSt :=
  (st.save.map Prod.snd).foldl parseStep (st, sst)

/-- The constructor `Frontier.__init__` after the save file has been opened: `restart` seeds
from scratch (the old file was deleted), otherwise the save content is
parsed and the seeds are added only when the save is empty. -/
def frontierInit (sst : ScraperSt) (seeds : List String) (restart : Bool)
    (save : List (String × (String × Bool))) : FrontierSt × ScraperSt :=
  if restart then
    (seeds.foldl addUrl { domainQueues := [], lastAccess := [], urlsSeen := [], save := [] }, sst)
  else
    let st0 : FrontierSt := { domainQueues := [], lastAccess := [], urlsSeen := [], save := save }
    let (st1, sst1) := parseSaveFile st0 sst
    if save.isEmpty then (seeds.foldl addUrl st1, sst1) else (st1, sst1)

/-! ## Traces of frontier operations (for the politeness claim) -/

/-- One frontier call made by some worker: `add_url`, `get_tbd_url` at wall
time `t`, or `mark_url_complete`. -/
inductive FOp
  | add (u : String)
  | tbd (t : Rat)
  | complete (u : String)

/-- The wall-clock times at which the calls in a trace of frontier
operations dequeue a URL from host `h`'s queue, in trace order; the state is
threaded through every call exactly as the mutexed source does. -/
def hServeTimes (delay : Rat) (st : FrontierSt) (h : String) : List FOp → List Rat
  | [] => []
  | FOp.add u :: rest => hServeTimes delay (addUrl st u) h rest
  | FOp.complete u :: rest => hServeTimes delay (markUrlComplete st u) h rest
  | FOp.tbd t :: rest =>
    (match (getTbdUrlD delay st t).1 with
     | some (d, _) => if d = h then [t] else []
     | none => []) ++ hServeTimes delay ((getTbdUrlD delay st t).2) h rest

/-- All URLs sitting in some host queue. -/
def allQueued (dq : List (String × List String)) : List String :=
  (dq.map Prod.snd).flatten

/-- The sub-sequence of the stored `(url, completed)` values that
`_parse_save_file` keeps: `completed` false and `is_valid` true, with the
`is_valid` module state threaded in iteration order. -/
def keptUrls (sst : ScraperSt) : List (String × Bool) → List String
  | [] => []
  | (u, c) :: rest =>
    if c then keptUrls sst rest
    else
      match isValidS sst u with
      | (true, sst') => u :: keptUrls sst' rest
      | (false, sst') => keptUrls sst' rest

/-! ## Concrete inputs used by the claim theorems and witnesses -/

/-- Runs `is_valid` on a list of URLs in order, collecting the results and
threading the module state. -/
def runValidL (sst : ScraperSt) : List String → List Bool × ScraperSt
  | [] => ([], sst)
  | u :: t =>
    match isValidS sst u with
    | (b, sst') =>
      let (bs, sst'') := runValidL sst' t
      (b :: bs, sst'')

/-- The key under which `is_url_trap` counts same-path repeats:
`(parsed.netloc, parsed.path)` (a junk key when `urlparse` raises, in which
case no counter is touched at all). -/
def npKeyD (url : List Char) : List Char × List Char :=
  match urlparseE url with
  | .ok p => (p.netloc, p.path)
  | .error _ => ([], [])

/-- The `i`-th of the 76 URLs that differ only in an integer path segment;
the spec says they all share the trap pattern `stat.uci.edu/x/N?`. -/
def c3Url (i : Nat) : String := "https://stat.uci.edu/x/" ++ toString (i + 1)

def c3Urls : List String := (List.range 76).map c3Url

/-- A page body of 50 short words (150 characters), used to drive the
scraper pipeline in the duplicate-page witness. -/
def c7content : String := String.join (List.replicate 50 "xy ")

def c7getLinks : String → String → List String := fun _ _ => ["https://ics.uci.edu/z"]

def c7hash : List Char → Nat := fun _ => 0

/-- A scraper state whose exact-hash set already holds the digest of
`c7content`'s extracted text, so the next sighting is an exact duplicate. -/
def c7St : ScrSt :=
  { initScrSt with dup := { initDupSt with seenExactHashes := [extractTextContent c7content] } }

def frontier0 : FrontierSt := { domainQueues := [], lastAccess := [], urlsSeen := [], save := [] }

/-- A short trace: two URLs of one host enqueued, three `get_tbd_url` calls. -/
def c1Ops : List FOp :=
  [.add "https://ics.uci.edu/a", .add "https://ics.uci.edu/b",
   .tbd 1, .tbd 1, .tbd 2]

/-- A save file with one pending valid URL, one completed URL, and one
pending URL that fails `is_valid`. -/
def c2Save : List (String × (String × Bool)) :=
  [("https://ics.uci.edu/a", ("https://ics.uci.edu/a", false)),
   ("https://ics.uci.edu/b", ("https://ics.uci.edu/b", true)),
   ("ftp://x", ("ftp://x", false))]

end Crawler

namespace Crawler

set_option maxRecDepth 100000
set_option maxHeartbeats 8000000

/-! # Claim theorems -/

/-! ### C3: the pattern-frequency trap -/

theorem lookupA_bumpA_self {κ : Type} [DecidableEq κ] (m : List (κ × Nat)) (k : κ) :
    lookupA (bumpA m k) k = some ((lookupA m k).getD 0 + 1) := by
  induction m with
  | nil => simp [bumpA, lookupA]
  | cons p t ih =>
    by_cases hk : p.1 = k
    · simp [bumpA, hk, lookupA]
    · simp [bumpA, hk, lookupA, ih]

theorem lookupA_bumpA_ne {κ : Type} [DecidableEq κ] (m : List (κ × Nat)) (k q : κ)
    (h : q ≠ k) : lookupA (bumpA m k) q = lookupA m q := by
  induction m with
  | nil => simp [bumpA, lookupA, Ne.symm h]
  | cons p t ih =>
    by_cases hk : p.1 = k
    · simp [bumpA, hk, lookupA, Ne.symm h]
    · simp [bumpA, hk, lookupA, ih]

theorem countA_bumpA_self {κ : Type} [DecidableEq κ] (m : List (κ × Nat)) (k : κ) :
    countA (bumpA m k) k = countA m k + 1 := by
  simp [countA, lookupA_bumpA_self]

theorem countA_bumpA_ne {κ : Type} [DecidableEq κ] (m : List (κ × Nat)) (k q : κ)
    (h : q ≠ k) : countA (bumpA m k) q = countA m q := by
  simp [countA, lookupA_bumpA_ne m k q h]

/-- Congruence for one `if` layer of a result pair whose two sides share
the condition but differ in the carried state. -/
theorem ite_fst_eq {α β : Type} (c : Prop) [Decidable c] (a a' b b' : α × β)
    (h1 : a.1 = a'.1) (h2 : b.1 = b'.1) : (ite c a b).1 = (ite c a' b').1 := by
  by_cases hc : c <;> simp [hc, h1, h2]

/-- Pattern-counter reading of one `if` layer of `is_valid` / `is_url_trap`. -/
theorem countA_ite_up (c : Prop) [Decidable c] (a b : Bool × ScraperSt)
    (q : List Char) (n : Nat)
    (h1 : countA a.2.urlPatternCounter q = n) (h2 : countA b.2.urlPatternCounter q = n) :
    countA (ite c a b).2.urlPatternCounter q = n := by
  by_cases hc : c <;> simp [hc, h1, h2]

/-- Same-path-counter reading of one `if` layer of `is_valid` / `is_url_trap`. -/
theorem countA_ite_dp (c : Prop) [Decidable c] (a b : Bool × ScraperSt)
    (q : List Char × List Char) (n : Nat)
    (h1 : countA a.2.domainPathCounter q = n) (h2 : countA b.2.domainPathCounter q = n) :
    countA (ite c a b).2.domainPathCounter q = n := by
  by_cases hc : c <;> simp [hc, h1, h2]

/-- The verdict of `is_url_trap` depends on the module state only through
the two counters at the URL's own keys. -/
theorem isUrlTrap_fst_eq (st st' : ScraperSt) (url : List Char)
    (h1 : countA st.urlPatternCounter (getUrlPattern url)
        = countA st'.urlPatternCounter (getUrlPattern url))
    (h2 : countA st.domainPathCounter (npKeyD url)
        = countA st'.domainPathCounter (npKeyD url)) :
    (isUrlTrap st url).1 = (isUrlTrap st' url).1 := by
  unfold isUrlTrap
  cases hp : urlparseE url with
  | error e => rfl
  | ok parsed =>
    have hnp : npKeyD url = (parsed.netloc, parsed.path) := by simp [npKeyD, hp]
    rw [hnp] at h2
    dsimp only
    simp only [countA_bumpA_self]
    rw [h1, h2]
    split_ifs <;> rfl

/-- The verdict of `is_valid` depends on the module state only through the
two trap counters at the URL's own keys. -/
theorem isValidS_fst_eq (st st' : ScraperSt) (u : String)
    (h1 : countA st.urlPatternCounter (getUrlPattern u.data)
        = countA st'.urlPatternCounter (getUrlPattern u.data))
    (h2 : countA st.domainPathCounter (npKeyD u.data)
        = countA st'.domainPathCounter (npKeyD u.data)) :
    (isValidS st u).1 = (isValidS st' u).1 := by
  show (isValid st u.data).1 = (isValid st' u.data).1
  unfold isValid isValidE
  cases hp : urlparseE u.data with
  | error e => rfl
  | ok parsed =>
    dsimp only [Except.map]
    unfold isValidBody
    rcases hA : isUrlTrap st u.data with ⟨t1, s1⟩
    rcases hB : isUrlTrap st' u.data with ⟨t2, s2⟩
    have ht : t1 = t2 := by
      have h := isUrlTrap_fst_eq st st' u.data h1 h2
      rw [hA, hB] at h
      exact h
    subst ht
    dsimp only
    iterate 10 (refine ite_fst_eq _ _ _ _ _ rfl ?_)
    rfl

/-- An `is_url_trap` call bumps no pattern counter other than the one at
the URL's own pattern key. -/
theorem isUrlTrap_up_count (st : ScraperSt) (url : List Char) (q : List Char)
    (h : q ≠ getUrlPattern url) :
    countA ((isUrlTrap st url).2).urlPatternCounter q = countA st.urlPatternCounter q := by
  unfold isUrlTrap
  cases hp : urlparseE url with
  | error e => rfl
  | ok parsed =>
    dsimp only
    split_ifs <;> first
      | rfl
      | exact countA_bumpA_ne st.urlPatternCounter (getUrlPattern url) q h

/-- An `is_url_trap` call bumps no same-path counter other than the one at
the URL's own `(netloc, path)` key. -/
theorem isUrlTrap_dp_count (st : ScraperSt) (url : List Char) (q : List Char × List Char)
    (h : q ≠ npKeyD url) :
    countA ((isUrlTrap st url).2).domainPathCounter q = countA st.domainPathCounter q := by
  unfold isUrlTrap
  cases hp : urlparseE url with
  | error e => rfl
  | ok parsed =>
    have hnp : npKeyD url = (parsed.netloc, parsed.path) := by simp [npKeyD, hp]
    rw [hnp] at h
    dsimp only
    split_ifs <;> first
      | rfl
      | exact countA_bumpA_ne st.domainPathCounter (parsed.netloc, parsed.path) q h

/-- An `is_valid` call leaves every pattern counter other than the one at
the URL's own pattern key unchanged. -/
theorem isValidS_up_count (st : ScraperSt) (u : String) (q : List Char)
    (h : q ≠ getUrlPattern u.data) :
    countA ((isValidS st u).2).urlPatternCounter q = countA st.urlPatternCounter q := by
  show countA ((isValid st u.data).2).urlPatternCounter q = countA st.urlPatternCounter q
  unfold isValid isValidE
  cases hp : urlparseE u.data with
  | error e => rfl
  | ok parsed =>
    dsimp only [Except.map]
    unfold isValidBody
    rcases hA : isUrlTrap st u.data with ⟨t1, s1⟩
    have hs1 : countA s1.urlPatternCounter q = countA st.urlPatternCounter q := by
      have hh := isUrlTrap_up_count st u.data q h
      rw [hA] at hh
      exact hh
    dsimp only
    refine countA_ite_up _ _ _ _ _ rfl ?_
    refine countA_ite_up _ _ _ _ _ rfl ?_
    refine countA_ite_up _ _ _ _ _ rfl ?_
    refine countA_ite_up _ _ _ _ _ rfl ?_
    refine countA_ite_up _ _ _ _ _ rfl ?_
    refine countA_ite_up _ _ _ _ _ rfl ?_
    refine countA_ite_up _ _ _ _ _ hs1 ?_
    refine countA_ite_up _ _ _ _ _ hs1 ?_
    refine countA_ite_up _ _ _ _ _ hs1 ?_
    refine countA_ite_up _ _ _ _ _ hs1 ?_
    exact hs1

/-- An `is_valid` call leaves every same-path counter other than the one at
the URL's own `(netloc, path)` key unchanged. -/
theorem isValidS_dp_count (st : ScraperSt) (u : String) (q : List Char × List Char)
    (h : q ≠ npKeyD u.data) :
    countA ((isValidS st u).2).domainPathCounter q = countA st.domainPathCounter q := by
  show countA ((isValid st u.data).2).domainPathCounter q = countA st.domainPathCounter q
  unfold isValid isValidE
  cases hp : urlparseE u.data with
  | error e => rfl
  | ok parsed =>
    dsimp only [Except.map]
    unfold isValidBody
    rcases hA : isUrlTrap st u.data with ⟨t1, s1⟩
    have hs1 : countA s1.domainPathCounter q = countA st.domainPathCounter q := by
      have hh := isUrlTrap_dp_count st u.data q h
      rw [hA] at hh
      exact hh
    dsimp only
    refine countA_ite_dp _ _ _ _ _ rfl ?_
    refine countA_ite_dp _ _ _ _ _ rfl ?_
    refine countA_ite_dp _ _ _ _ _ rfl ?_
    refine countA_ite_dp _ _ _ _ _ rfl ?_
    refine countA_ite_dp _ _ _ _ _ rfl ?_
    refine countA_ite_dp _ _ _ _ _ rfl ?_
    refine countA_ite_dp _ _ _ _ _ hs1 ?_
    refine countA_ite_dp _ _ _ _ _ hs1 ?_
    refine countA_ite_dp _ _ _ _ _ hs1 ?_
    refine countA_ite_dp _ _ _ _ _ hs1 ?_
    exact hs1

theorem c3_valid_0 : (isValidS initScraperSt (c3Url 0)).1 = true := by decide
theorem c3_valid_1 : (isValidS initScraperSt (c3Url 1)).1 = true := by decide
theorem c3_valid_2 : (isValidS initScraperSt (c3Url 2)).1 = true := by decide
theorem c3_valid_3 : (isValidS initScraperSt (c3Url 3)).1 = true := by decide
theorem c3_valid_4 : (isValidS initScraperSt (c3Url 4)).1 = true := by decide
theorem c3_valid_5 : (isValidS initScraperSt (c3Url 5)).1 = true := by decide
theorem c3_valid_6 : (isValidS initScraperSt (c3Url 6)).1 = true := by decide
theorem c3_valid_7 : (isValidS initScraperSt (c3Url 7)).1 = true := by decide
theorem c3_valid_8 : (isValidS initScraperSt (c3Url 8)).1 = true := by decide
theorem c3_valid_9 : (isValidS initScraperSt (c3Url 9)).1 = true := by decide
theorem c3_valid_10 : (isValidS initScraperSt (c3Url 10)).1 = true := by decide
theorem c3_valid_11 : (isValidS initScraperSt (c3Url 11)).1 = true := by decide
theorem c3_valid_12 : (isValidS initScraperSt (c3Url 12)).1 = true := by decide
theorem c3_valid_13 : (isValidS initScraperSt (c3Url 13)).1 = true := by decide
theorem c3_valid_14 : (isValidS initScraperSt (c3Url 14)).1 = true := by decide
theorem c3_valid_15 : (isValidS initScraperSt (c3Url 15)).1 = true := by decide
theorem c3_valid_16 : (isValidS initScraperSt (c3Url 16)).1 = true := by decide
theorem c3_valid_17 : (isValidS initScraperSt (c3Url 17)).1 = true := by decide
theorem c3_valid_18 : (isValidS initScraperSt (c3Url 18)).1 = true := by decide
theorem c3_valid_19 : (isValidS initScraperSt (c3Url 19)).1 = true := by decide
theorem c3_valid_20 : (isValidS initScraperSt (c3Url 20)).1 = true := by decide
theorem c3_valid_21 : (isValidS initScraperSt (c3Url 21)).1 = true := by decide
theorem c3_valid_22 : (isValidS initScraperSt (c3Url 22)).1 = true := by decide
theorem c3_valid_23 : (isValidS initScraperSt (c3Url 23)).1 = true := by decide
theorem c3_valid_24 : (isValidS initScraperSt (c3Url 24)).1 = true := by decide
theorem c3_valid_25 : (isValidS initScraperSt (c3Url 25)).1 = true := by decide
theorem c3_valid_26 : (isValidS initScraperSt (c3Url 26)).1 = true := by decide
theorem c3_valid_27 : (isValidS initScraperSt (c3Url 27)).1 = true := by decide
theorem c3_valid_28 : (isValidS initScraperSt (c3Url 28)).1 = true := by decide
theorem c3_valid_29 : (isValidS initScraperSt (c3Url 29)).1 = true := by decide
theorem c3_valid_30 : (isValidS initScraperSt (c3Url 30)).1 = true := by decide
theorem c3_valid_31 : (isValidS initScraperSt (c3Url 31)).1 = true := by decide
theorem c3_valid_32 : (isValidS initScraperSt (c3Url 32)).1 = true := by decide
theorem c3_valid_33 : (isValidS initScraperSt (c3Url 33)).1 = true := by decide
theorem c3_valid_34 : (isValidS initScraperSt (c3Url 34)).1 = true := by decide
theorem c3_valid_35 : (isValidS initScraperSt (c3Url 35)).1 = true := by decide
theorem c3_valid_36 : (isValidS initScraperSt (c3Url 36)).1 = true := by decide
theorem c3_valid_37 : (isValidS initScraperSt (c3Url 37)).1 = true := by decide
theorem c3_valid_38 : (isValidS initScraperSt (c3Url 38)).1 = true := by decide
theorem c3_valid_39 : (isValidS initScraperSt (c3Url 39)).1 = true := by decide
theorem c3_valid_40 : (isValidS initScraperSt (c3Url 40)).1 = true := by decide
theorem c3_valid_41 : (isValidS initScraperSt (c3Url 41)).1 = true := by decide
theorem c3_valid_42 : (isValidS initScraperSt (c3Url 42)).1 = true := by decide
theorem c3_valid_43 : (isValidS initScraperSt (c3Url 43)).1 = true := by decide
theorem c3_valid_44 : (isValidS initScraperSt (c3Url 44)).1 = true := by decide
theorem c3_valid_45 : (isValidS initScraperSt (c3Url 45)).1 = true := by decide
theorem c3_valid_46 : (isValidS initScraperSt (c3Url 46)).1 = true := by decide
theorem c3_valid_47 : (isValidS initScraperSt (c3Url 47)).1 = true := by decide
theorem c3_valid_48 : (isValidS initScraperSt (c3Url 48)).1 = true := by decide
theorem c3_valid_49 : (isValidS initScraperSt (c3Url 49)).1 = true := by decide
theorem c3_valid_50 : (isValidS initScraperSt (c3Url 50)).1 = true := by decide
theorem c3_valid_51 : (isValidS initScraperSt (c3Url 51)).1 = true := by decide
theorem c3_valid_52 : (isValidS initScraperSt (c3Url 52)).1 = true := by decide
theorem c3_valid_53 : (isValidS initScraperSt (c3Url 53)).1 = true := by decide
theorem c3_valid_54 : (isValidS initScraperSt (c3Url 54)).1 = true := by decide
theorem c3_valid_55 : (isValidS initScraperSt (c3Url 55)).1 = true := by decide
theorem c3_valid_56 : (isValidS initScraperSt (c3Url 56)).1 = true := by decide
theorem c3_valid_57 : (isValidS initScraperSt (c3Url 57)).1 = true := by decide
theorem c3_valid_58 : (isValidS initScraperSt (c3Url 58)).1 = true := by decide
theorem c3_valid_59 : (isValidS initScraperSt (c3Url 59)).1 = true := by decide
theorem c3_valid_60 : (isValidS initScraperSt (c3Url 60)).1 = true := by decide
theorem c3_valid_61 : (isValidS initScraperSt (c3Url 61)).1 = true := by decide
theorem c3_valid_62 : (isValidS initScraperSt (c3Url 62)).1 = true := by decide
theorem c3_valid_63 : (isValidS initScraperSt (c3Url 63)).1 = true := by decide
theorem c3_valid_64 : (isValidS initScraperSt (c3Url 64)).1 = true := by decide
theorem c3_valid_65 : (isValidS initScraperSt (c3Url 65)).1 = true := by decide
theorem c3_valid_66 : (isValidS initScraperSt (c3Url 66)).1 = true := by decide
theorem c3_valid_67 : (isValidS initScraperSt (c3Url 67)).1 = true := by decide
theorem c3_valid_68 : (isValidS initScraperSt (c3Url 68)).1 = true := by decide
theorem c3_valid_69 : (isValidS initScraperSt (c3Url 69)).1 = true := by decide
theorem c3_valid_70 : (isValidS initScraperSt (c3Url 70)).1 = true := by decide
theorem c3_valid_71 : (isValidS initScraperSt (c3Url 71)).1 = true := by decide
theorem c3_valid_72 : (isValidS initScraperSt (c3Url 72)).1 = true := by decide
theorem c3_valid_73 : (isValidS initScraperSt (c3Url 73)).1 = true := by decide
theorem c3_valid_74 : (isValidS initScraperSt (c3Url 74)).1 = true := by decide
theorem c3_valid_75 : (isValidS initScraperSt (c3Url 75)).1 = true := by decide

theorem c3_all_valid : ∀ u ∈ c3Urls, (isValidS initScraperSt u).1 = true := by
  intro u hu
  simp only [c3Urls, List.mem_map, List.mem_range] at hu
  obtain ⟨i, hi, rfl⟩ := hu
  interval_cases i
  · exact c3_valid_0
  · exact c3_valid_1
  · exact c3_valid_2
  · exact c3_valid_3
  · exact c3_valid_4
  · exact c3_valid_5
  · exact c3_valid_6
  · exact c3_valid_7
  · exact c3_valid_8
  · exact c3_valid_9
  · exact c3_valid_10
  · exact c3_valid_11
  · exact c3_valid_12
  · exact c3_valid_13
  · exact c3_valid_14
  · exact c3_valid_15
  · exact c3_valid_16
  · exact c3_valid_17
  · exact c3_valid_18
  · exact c3_valid_19
  · exact c3_valid_20
  · exact c3_valid_21
  · exact c3_valid_22
  · exact c3_valid_23
  · exact c3_valid_24
  · exact c3_valid_25
  · exact c3_valid_26
  · exact c3_valid_27
  · exact c3_valid_28
  · exact c3_valid_29
  · exact c3_valid_30
  · exact c3_valid_31
  · exact c3_valid_32
  · exact c3_valid_33
  · exact c3_valid_34
  · exact c3_valid_35
  · exact c3_valid_36
  · exact c3_valid_37
  · exact c3_valid_38
  · exact c3_valid_39
  · exact c3_valid_40
  · exact c3_valid_41
  · exact c3_valid_42
  · exact c3_valid_43
  · exact c3_valid_44
  · exact c3_valid_45
  · exact c3_valid_46
  · exact c3_valid_47
  · exact c3_valid_48
  · exact c3_valid_49
  · exact c3_valid_50
  · exact c3_valid_51
  · exact c3_valid_52
  · exact c3_valid_53
  · exact c3_valid_54
  · exact c3_valid_55
  · exact c3_valid_56
  · exact c3_valid_57
  · exact c3_valid_58
  · exact c3_valid_59
  · exact c3_valid_60
  · exact c3_valid_61
  · exact c3_valid_62
  · exact c3_valid_63
  · exact c3_valid_64
  · exact c3_valid_65
  · exact c3_valid_66
  · exact c3_valid_67
  · exact c3_valid_68
  · exact c3_valid_69
  · exact c3_valid_70
  · exact c3_valid_71
  · exact c3_valid_72
  · exact c3_valid_73
  · exact c3_valid_74
  · exact c3_valid_75

/-- On URLs whose pattern keys and path keys are all fresh and pairwise
distinct, every `is_valid` call of the run answers as it would from the
initial module state: the counters the calls accumulate never touch a later
URL's keys. -/
theorem runValidL_all_true :
    ∀ (us : List String) (st : ScraperSt),
      (∀ u ∈ us, (isValidS initScraperSt u).1 = true) →
      (∀ u ∈ us, countA st.urlPatternCounter (getUrlPattern u.data) = 0) →
      (∀ u ∈ us, countA st.domainPathCounter (npKeyD u.data) = 0) →
      (us.map (fun u => getUrlPattern u.data)).Nodup →
      (us.map (fun u => npKeyD u.data)).Nodup →
      (runValidL st us).1 = List.replicate us.length true := by
  intro us
  induction us with
  | nil => intro st _ _ _ _ _; rfl
  | cons u rest ih =>
    intro st hv hup hdp hn1 hn2
    simp only [List.map_cons, List.nodup_cons] at hn1 hn2
    have hfst : (isValidS st u).1 = (isValidS initScraperSt u).1 := by
      apply isValidS_fst_eq
      · rw [hup u (List.mem_cons_self u rest)]; rfl
      · rw [hdp u (List.mem_cons_self u rest)]; rfl
    have htrue : (isValidS st u).1 = true :=
      hfst.trans (hv u (List.mem_cons_self u rest))
    rcases he : isValidS st u with ⟨b, st1⟩
    have hb : b = true := by rw [he] at htrue; exact htrue
    subst hb
    have hup' : ∀ u' ∈ rest, countA st1.urlPatternCounter (getUrlPattern u'.data) = 0 := by
      intro u' hu'
      have hne : getUrlPattern u'.data ≠ getUrlPattern u.data := by
        intro hq
        exact hn1.1 (hq ▸ List.mem_map_of_mem (fun x => getUrlPattern x.data) hu')
      have hh := isValidS_up_count st u (getUrlPattern u'.data) hne
      rw [he] at hh
      exact hh.trans (hup u' (List.mem_cons_of_mem u hu'))
    have hdp' : ∀ u' ∈ rest, countA st1.domainPathCounter (npKeyD u'.data) = 0 := by
      intro u' hu'
      have hne : npKeyD u'.data ≠ npKeyD u.data := by
        intro hq
        exact hn2.1 (hq ▸ List.mem_map_of_mem (fun x => npKeyD x.data) hu')
      have hh := isValidS_dp_count st u (npKeyD u'.data) hne
      rw [he] at hh
      exact hh.trans (hdp u' (List.mem_cons_of_mem u hu'))
    have ihr := ih st1 (fun u' hu' => hv u' (List.mem_cons_of_mem u hu'))
      hup' hdp' hn1.2 hn2.2
    rcases hr : runValidL st1 rest with ⟨bs, st2⟩
    rw [hr] at ihr
    simp only [runValidL, he, hr, List.length_cons, List.replicate_succ]
    exact congrArg (true :: ·) ihr

/-- The 76 trap patterns the run actually produces are pairwise distinct —
each keeps its own integer — so no counter is shared. -/
theorem c3_patterns_nodup : (c3Urls.map (fun u => getUrlPattern u.data)).Nodup := by
  decide

theorem c3_npkeys_nodup : (c3Urls.map (fun u => npKeyD u.data)).Nodup := by
  decide

/-- Claim C3 (code bug).  The claim says `get_url_pattern` replaces digit runs
in the path by `N`, so that the 76 URLs `https://stat.uci.edu/x/1` …
`/x/76` share the pattern `stat.uci.edu/x/N?` and the 76th `is_valid` call
returns false.  In the source the substitution is `re.sub(r'\\d+', 'N', path)`
— a double-escaped backslash — which matches a literal `\d`-run, not digits:
every URL keeps its own integer in its pattern, the shared counter never
moves past 1, and all 76 calls (in particular the 76th) return true. -/
theorem c3_pattern_trap_broken :
    (runValidL initScraperSt c3Urls).1 = List.replicate 76 true
  ∧ getUrlPattern "https://stat.uci.edu/x/41".data = "stat.uci.edu/x/41?".data
  ∧ getUrlPattern "https://stat.uci.edu/x/1".data ≠ getUrlPattern "https://stat.uci.edu/x/2".data := by
  refine ⟨?_, by decide, by decide⟩
  have hlen : c3Urls.length = 76 := by simp [c3Urls]
  have := runValidL_all_true c3Urls initScraperSt c3_all_valid
    (fun u _ => rfl) (fun u _ => rfl) c3_patterns_nodup c3_npkeys_nodup
  rw [hlen] at this
  exact this

/-- Claim C4 (code bug).  The claim says `is_valid` rejects, as a calendar
pattern, every URL containing a `/YYYY/MM/DD` path segment.  The source
writes the pattern as `r'/\\d{4}/\\d{2}/\\d{2}'`, which matches the literal
string `/\dddd/\dd/\dd`, never a date: `https://ics.uci.edu/2023/05/01`
sails through `is_valid`. -/
theorem c4_calendar_date_broken :
    (isValidS initScraperSt "https://ics.uci.edu/2023/05/01").1 = true
  ∧ isCalendarOrEvent "https://ics.uci.edu/2023/05/01".data = false
  ∧ isCalendarOrEvent "https://ics.uci.edu/\\dddd/\\dd/\\dd".data = true := by
  refine ⟨by decide, by decide, by decide⟩

/-- Claim C5 (counterexample to the claim as stated).
`is_valid("https://physics.uci.edu/x")` does return false, but the rejection
is recorded under `bad_domain`, not `blocked_domain`: `physics.uci.edu` is
not a subdomain of any allow-list domain, so the allow-list check at step 2
fires before the deny-list at step 3 is ever reached. -/
theorem c5_blocked_domain_not_recorded :
    (isValidS initScraperSt "https://physics.uci.edu/x").1 = false
  ∧ countA (isValidS initScraperSt "https://physics.uci.edu/x").2.rejectionStats
      "blocked_domain".data = 0 := by
  refine ⟨by decide, by decide⟩

/-- Claim C5 (amended).  `is_valid("https://physics.uci.edu/x")` → false with
the rejection recorded under reason `bad_domain`;
`is_valid("https://ics.uci.edu/paper.pdf")` → false with reason `ext_pdf`;
`is_valid("https://ics.uci.edu/courses/cs101/")` → true. -/
theorem c5_admission_scenario :
    (isValidS initScraperSt "https://physics.uci.edu/x").1 = false
  ∧ countA (isValidS initScraperSt "https://physics.uci.edu/x").2.rejectionStats
      "bad_domain".data = 1
  ∧ (isValidS initScraperSt "https://ics.uci.edu/paper.pdf").1 = false
  ∧ countA (isValidS initScraperSt "https://ics.uci.edu/paper.pdf").2.rejectionStats
      "ext_pdf".data = 1
  ∧ (isValidS initScraperSt "https://ics.uci.edu/courses/cs101/").1 = true := by
  refine ⟨by decide, by decide, by decide, by decide, by decide⟩

/-- Claim C8 (code bug).  The claim says the extracted text has every
whitespace run collapsed to one space with all other characters preserved.
The source's normalization is `re.sub(r's+', ' ', text).strip()` — the
backslash of `\s+` is missing — so runs of the letter `s` are replaced by a
space while whitespace runs survive: the collected text `"class  is"` comes
out as `"cla   i"`, not `"class is"`. -/
theorem c8_whitespace_collapse_broken :
    extractTextContent "class  is" = "cla   i"
  ∧ containsSub (extractTextContent "class  is").data "  ".data = true
  ∧ extractTextContent "class  is" ≠ "class is" := by
  refine ⟨by decide, by decide, by decide⟩

/-- Claim C10 (confirmed).  `is_valid` is total: on every input string it
yields a boolean, and whenever its body raises (`Except.error`) the raise
came from `urlparse` — everything later is raise-free — and the call
returns `False` with the module state untouched. -/
theorem c10_isValid_total (st : ScraperSt) (url : List Char) :
    ((isValid st url).1 = true ∨ (isValid st url).1 = false)
  ∧ (∀ e, isValidE st url = Except.error e →
      urlparseE url = Except.error e ∧ isValid st url = (false, st)) := by
  constructor
  · cases h : (isValid st url).1 <;> simp
  · intro e he
    cases hp : urlparseE url with
    | ok p =>
      rw [isValidE, hp] at he
      simp [Except.map] at he
    | error e' =>
      cases e; cases e'
      exact ⟨rfl, by simp [isValid, isValidE, hp, Except.map]⟩

/-- Claim C6 (confirmed).  `add_url` is idempotent: the second of two
consecutive `add_url(u)` calls leaves the whole frontier state — host
queues, seen set and durable store — exactly as the first left it, so
nothing is enqueued or persisted twice. -/
theorem c6_addUrl_idempotent (st : FrontierSt) (u : String) :
    addUrl (addUrl st u) u = addUrl st u := by
  by_cases h1 : normalizeUrl u ∈ st.urlsSeen
  · simp [addUrl, h1]
  · by_cases h2 : (lookupA st.save (getUrlhash (normalizeUrl u))).isSome
    · simp [addUrl, h1, h2]
    · simp [addUrl, h1, h2]

/-- Appending to the ring never pushes it past the window. -/
theorem ringAppend_length_le (r : List (Nat × String)) (e : Nat × String)
    (h : r.length ≤ SIMHASH_WINDOW) : (ringAppend r e).length ≤ SIMHASH_WINDOW := by
  unfold ringAppend
  split
  · next hlt => simpa using hlt
  · next hge =>
    cases r with
    | nil => simp [SIMHASH_WINDOW] at hge
    | cons a t =>
      simp only [List.tail_cons, List.length_append, List.length_cons, List.length_nil,
        List.length_singleton] at *
      omega

/-- One `is_duplicate` call preserves the ring bound. -/
theorem isDuplicate_ring_le (pyHash : List Char → Nat) (st : DupSt) (text url : String)
    (h : st.seenSimhashes.length ≤ SIMHASH_WINDOW) :
    ((isDuplicate pyHash st text url).2).seenSimhashes.length ≤ SIMHASH_WINDOW := by
  unfold isDuplicate
  dsimp only
  split
  · exact h
  · split
    · exact h
    · split
      · exact h
      · exact ringAppend_length_le _ _ h

/-- Claim C9 (confirmed).  Starting from the initial module state, no sequence
of `is_duplicate` calls ever grows the SimHash ring past `SIMHASH_WINDOW`
(1000) entries, and an append to a full ring evicts the oldest entry. -/
theorem c9_simhash_ring_bounded (pyHash : List Char → Nat)
    (calls : List (String × String)) :
    ((calls.foldl (fun st c => (isDuplicate pyHash st c.1 c.2).2) initDupSt).seenSimhashes).length
      ≤ SIMHASH_WINDOW
  ∧ (∀ ring e, ring.length = SIMHASH_WINDOW → ringAppend ring e = ring.tail ++ [e]) := by
  constructor
  · have main : ∀ (cs : List (String × String)) (st : DupSt),
        st.seenSimhashes.length ≤ SIMHASH_WINDOW →
        ((cs.foldl (fun st c => (isDuplicate pyHash st c.1 c.2).2) st).seenSimhashes).length
          ≤ SIMHASH_WINDOW := by
      intro cs
      induction cs with
      | nil => intro st h; exact h
      | cons c t ih =>
        intro st h
        exact ih _ (isDuplicate_ring_le pyHash st c.1 c.2 h)
    exact main calls initDupSt (by simp [initDupSt])
  · intro ring e h
    unfold ringAppend
    rw [h, if_neg (lt_irrefl SIMHASH_WINDOW)]

/-- Witness for C9's full-ring clause at a concrete 1000-entry ring. -/
theorem c9_simhash_ring_bounded_witness :
    (List.replicate SIMHASH_WINDOW ((0 : Nat), "")).length = SIMHASH_WINDOW
  ∧ ringAppend (List.replicate SIMHASH_WINDOW ((0 : Nat), "")) (1, "u")
      = (List.replicate SIMHASH_WINDOW ((0 : Nat), "")).tail ++ [(1, "u")] :=
  ⟨by simp, (c9_simhash_ring_bounded (fun _ => 0) []).2 _ _ (by simp)⟩

/-- Claim C7 (confirmed).  When the page's extracted text is classified a
duplicate, `scraper` still returns the `is_valid`-filtered outlinks, and
the page store is untouched: no `save_page_data` record is appended and the
saved-pages counter does not move. -/
theorem c7_duplicate_keeps_links (pyHash : List Char → Nat)
    (getText : String → String) (getLinks : String → String → List String)
    (st : ScrSt) (url : String) (r : Resp)
    (hstatus : r.status = 200)
    (hmin : 100 ≤ r.content.length)
    (hmax : r.content.length ≤ MAX_CONTENT_SIZE)
    (hwords : MIN_WORD_COUNT ≤ (pySplit (extractTextContent (getText r.content)).data).length)
    (hdup : (isDuplicate pyHash st.dup (extractTextContent (getText r.content)) url).1.1 = true) :
    (scraper pyHash getText getLinks st url (some r)).1
      = (filterValid st.scr (getLinks url r.content)).1
  ∧ (scraper pyHash getText getLinks st url (some r)).2.savedPages = st.savedPages
  ∧ (scraper pyHash getText getLinks st url (some r)).2.pagesSaved = st.pagesSaved := by
  have h1 : ¬ (r.content.length < 100) := by omega
  have h2 : ¬ (r.content.length > MAX_CONTENT_SIZE) := by omega
  have h3 : ¬ ((pySplit (extractTextContent (getText r.content)).data).length
      < MIN_WORD_COUNT) := by omega
  rcases hd : isDuplicate pyHash st.dup (extractTextContent (getText r.content)) url
    with ⟨⟨b, reason⟩, dup'⟩
  rw [hd] at hdup
  simp only at hdup
  subst hdup
  rcases hf : filterValid st.scr (getLinks url r.content) with ⟨vl, scr'⟩
  simp [scraper, hstatus, h1, h2, h3, hd, hf, logProcessing]

/-- Witness for C7: a concrete 50-word page whose text is already in the
exact-hash set; the scraper returns its one valid outlink and saves
nothing. -/
theorem c7_duplicate_keeps_links_witness :
    (scraper c7hash id c7getLinks c7St "https://ics.uci.edu/p" (some ⟨200, c7content⟩)).1
      = (filterValid c7St.scr (c7getLinks "https://ics.uci.edu/p" c7content)).1
  ∧ (scraper c7hash id c7getLinks c7St "https://ics.uci.edu/p"
      (some ⟨200, c7content⟩)).2.savedPages = c7St.savedPages
  ∧ (scraper c7hash id c7getLinks c7St "https://ics.uci.edu/p"
      (some ⟨200, c7content⟩)).2.pagesSaved = c7St.pagesSaved :=
  c7_duplicate_keeps_links c7hash id c7getLinks c7St "https://ics.uci.edu/p" ⟨200, c7content⟩
    rfl (by decide) (by decide) (by decide) (by decide)

/-! ### C1: politeness of `get_tbd_url` -/

theorem lookupA_setA_self {κ α : Type} [DecidableEq κ] (m : List (κ × α)) (k : κ) (v : α) :
    lookupA (setA m k v) k = some v := by
  induction m with
  | nil => simp [setA, lookupA]
  | cons p t ih =>
    by_cases hk : p.1 = k
    · simp [setA, hk, lookupA]
    · simp [setA, hk, lookupA, ih]

theorem lookupA_setA_ne {κ α : Type} [DecidableEq κ] (m : List (κ × α)) (k k' : κ) (v : α)
    (h : k' ≠ k) : lookupA (setA m k v) k' = lookupA m k' := by
  induction m with
  | nil => simp [setA, lookupA, Ne.symm h]
  | cons p t ih =>
    by_cases hk : p.1 = k
    · have hp : ¬ p.1 = k' := by rw [hk]; exact Ne.symm h
      simp [setA, hk, lookupA, Ne.symm h, hp]
    · simp [setA, hk, lookupA, ih]

/-- A `get_tbd_url` call that serves no URL leaves the frontier unchanged. -/
theorem getTbdUrlD_none (delay : Rat) (st : FrontierSt) (t : Rat)
    (h : (getTbdUrlD delay st t).1 = none) : (getTbdUrlD delay st t).2 = st := by
  unfold getTbdUrlD at h ⊢
  cases hr : st.domainQueues.filter (readyPred delay st t) with
  | nil => rfl
  | cons hd tl =>
    rw [hr] at h
    rcases hd with ⟨d, q⟩
    cases q with
    | nil => rfl
    | cons u rest => simp at h

/-- A `get_tbd_url` call that serves `(d, u)` did so only because `d` had
cooled down for at least `delay`, and it stamps `d`'s last-access time with
the call time. -/
theorem getTbdUrlD_some (delay : Rat) (st : FrontierSt) (t : Rat) (d u : String)
    (h : (getTbdUrlD delay st t).1 = some (d, u)) :
    ((lookupA st.lastAccess d).getD 0) + delay ≤ t
  ∧ (getTbdUrlD delay st t).2.lastAccess = setA st.lastAccess d t := by
  unfold getTbdUrlD at h ⊢
  cases hr : st.domainQueues.filter (readyPred delay st t) with
  | nil => rw [hr] at h; simp at h
  | cons hd tl =>
    rw [hr] at h
    rcases hd with ⟨d0, q⟩
    cases q with
    | nil => simp at h
    | cons u0 rest =>
      simp only [Option.some.injEq, Prod.mk.injEq] at h
      obtain ⟨hd0, hu0⟩ := h
      subst hd0
      have hmem : (d0, u0 :: rest) ∈ st.domainQueues.filter (readyPred delay st t) := by
        rw [hr]; exact List.mem_cons_self _ _
      have hcond : readyPred delay st t (d0, u0 :: rest) = true := List.of_mem_filter hmem
      unfold readyPred at hcond
      rw [Bool.and_eq_true] at hcond
      have hle : delay ≤ t - ((lookupA st.lastAccess d0).getD 0) := of_decide_eq_true hcond.2
      exact ⟨by linarith, rfl⟩

theorem addUrl_lastAccess (st : FrontierSt) (u : String) :
    (addUrl st u).lastAccess = st.lastAccess := by
  by_cases h1 : normalizeUrl u ∈ st.urlsSeen
  · simp [addUrl, h1]
  · by_cases h2 : (lookupA st.save (getUrlhash (normalizeUrl u))).isSome
    · simp [addUrl, h1, h2]
    · simp [addUrl, h1, h2]

/-- Every dequeue time of host `h` in a trace lies at least `delay` past
`h`'s last-access stamp in the starting state. -/
theorem hServeTimes_lb (delay : Rat) (hd : 0 ≤ delay) (h : String) :
    ∀ (ops : List FOp) (st : FrontierSt) (x : Rat),
      x ∈ hServeTimes delay st h ops → ((lookupA st.lastAccess h).getD 0) + delay ≤ x := by
  intro ops
  induction ops with
  | nil => intro st x hx; simp [hServeTimes] at hx
  | cons op rest ih =>
    intro st x hx
    cases op with
    | add u =>
      rw [hServeTimes] at hx
      have hx' := ih (addUrl st u) x hx
      rw [addUrl_lastAccess] at hx'
      exact hx'
    | complete u =>
      rw [hServeTimes] at hx
      have hx' := ih (markUrlComplete st u) x hx
      rw [show (markUrlComplete st u).lastAccess = st.lastAccess from rfl] at hx'
      exact hx'
    | tbd t =>
      rw [hServeTimes, List.mem_append] at hx
      cases hg : (getTbdUrlD delay st t).1 with
      | none =>
        rcases hx with hx | hx
        · rw [hg] at hx; simp at hx
        · have hx' := ih _ x hx
          rw [getTbdUrlD_none delay st t hg] at hx'
          exact hx'
      | some du =>
        rcases du with ⟨d, u⟩
        have hspec := getTbdUrlD_some delay st t d u hg
        rcases hx with hx | hx
        · rw [hg] at hx
          dsimp only at hx
          by_cases hdh : d = h
          · rw [if_pos hdh] at hx
            simp at hx
            subst hx
            rw [← hdh]
            exact hspec.1
          · rw [if_neg hdh] at hx
            simp at hx
        · have hx' := ih _ x hx
          rw [hspec.2] at hx'
          by_cases hdh : d = h
          · subst hdh
            rw [lookupA_setA_self] at hx'
            simp only [Option.getD_some] at hx'
            have h1 := hspec.1
            linarith
          · rw [lookupA_setA_ne _ _ _ _ (fun hh => hdh hh.symm)] at hx'
            exact hx'

/-- The dequeue times of any one host along a trace are pairwise separated
by at least `delay`. -/
theorem hServeTimes_pairwise (delay : Rat) (hd : 0 ≤ delay) (h : String) :
    ∀ (ops : List FOp) (st : FrontierSt),
      List.Pairwise (fun a b => a + delay ≤ b) (hServeTimes delay st h ops) := by
  intro ops
  induction ops with
  | nil => intro st; simp [hServeTimes]
  | cons op rest ih =>
    intro st
    cases op with
    | add u => rw [hServeTimes]; exact ih _
    | complete u => rw [hServeTimes]; exact ih _
    | tbd t =>
      rw [hServeTimes]
      cases hg : (getTbdUrlD delay st t).1 with
      | none =>
        dsimp only
        simp only [List.nil_append]
        exact ih _
      | some du =>
        rcases du with ⟨d, u⟩
        dsimp only
        by_cases hdh : d = h
        · rw [if_pos hdh]
          rw [List.singleton_append, List.pairwise_cons]
          constructor
          · intro b hb
            have hb' := hServeTimes_lb delay hd h rest _ b hb
            have hspec := getTbdUrlD_some delay st t d u hg
            rw [hspec.2] at hb'
            subst hdh
            rw [lookupA_setA_self] at hb'
            simpa using hb'
          · exact ih _
        · rw [if_neg hdh]
          simp only [List.nil_append]
          exact ih _

/-- Claim C1 (confirmed).  Politeness: along any trace of frontier calls, the
times at which `get_tbd_url` dequeues URLs of one host are pairwise at
least `time_delay` apart; a single call serves a host only when the call
time is at least `time_delay` past that host's `last_access_time`, and it
then sets `last_access_time` for that host to the call time. -/
theorem c1_politeness (delay : Rat) (hdelay : 0 ≤ delay) (st : FrontierSt)
    (ops : List FOp) (h : String) :
    List.Pairwise (fun a b => a + delay ≤ b) (hServeTimes delay st h ops)
  ∧ (∀ t d u, (getTbdUrlD delay st t).1 = some (d, u) →
        ((lookupA st.lastAccess d).getD 0) + delay ≤ t
      ∧ (lookupA (getTbdUrlD delay st t).2.lastAccess d).getD 0 = t) := by
  constructor
  · exact hServeTimes_pairwise delay hdelay h ops st
  · intro t d u hg
    obtain ⟨h1, h2⟩ := getTbdUrlD_some delay st t d u hg
    refine ⟨h1, ?_⟩
    rw [h2, lookupA_setA_self]
    rfl

/-- Witness for C1 on a concrete trace: two URLs of `ics.uci.edu` enqueued
and three `get_tbd_url` calls at times 1, 1 and 2 with `time_delay = 1/2`. -/
theorem c1_politeness_witness :
    (0 : Rat) ≤ 1/2
  ∧ (List.Pairwise (fun a b => a + (1/2 : Rat) ≤ b)
        (hServeTimes (1/2) frontier0 "ics.uci.edu" c1Ops)
     ∧ (∀ t d u, (getTbdUrlD (1/2) frontier0 t).1 = some (d, u) →
          ((lookupA frontier0.lastAccess d).getD 0) + (1/2 : Rat) ≤ t
        ∧ (lookupA (getTbdUrlD (1/2) frontier0 t).2.lastAccess d).getD 0 = t)) :=
  ⟨by norm_num, c1_politeness (1/2) (by norm_num) frontier0 c1Ops "ics.uci.edu"⟩

/-! ### C2: restart round-trip -/

/-- Enqueueing `url` adds exactly `url` to the multiset of queued URLs:
membership over all host queues grows by `url` and nothing else. -/
theorem mem_allQueued_setA (dq : List (String × List String)) (k : String)
    (q : List String) (url u : String) (hl : lookupA dq k = some q) :
    (u ∈ allQueued (setA dq k (q ++ [url])) ↔ u = url ∨ u ∈ allQueued dq) := by
  induction dq with
  | nil => simp [lookupA] at hl
  | cons p t ih =>
    by_cases hk : p.1 = k
    · rw [lookupA, if_pos hk] at hl
      injection hl with hq
      subst hq
      simp only [setA, if_pos hk, allQueued, List.map_cons, List.flatten_cons,
        List.mem_append, List.mem_singleton]
      tauto
    · rw [lookupA, if_neg hk] at hl
      have ih' := ih hl
      simp only [setA, if_neg hk, allQueued, List.map_cons, List.flatten_cons,
        List.mem_append] at ih' ⊢
      tauto

theorem mem_allQueued_enq (dq : List (String × List String)) (url u : String) :
    u ∈ allQueued (addToDomainQueue dq url) ↔ u = url ∨ u ∈ allQueued dq := by
  cases hl : lookupA dq (getDomain url) with
  | none =>
    have he : addToDomainQueue dq url = dq ++ [(getDomain url, [url])] := by
      simp [addToDomainQueue, hl]
    rw [he]
    simp only [allQueued, List.map_append, List.flatten_append, List.mem_append,
      List.map_cons, List.map_nil, List.flatten_cons, List.flatten_nil,
      List.mem_singleton, List.append_nil]
    tauto
  | some q =>
    have he : addToDomainQueue dq url = setA dq (getDomain url) (q ++ [url]) := by
      simp [addToDomainQueue, hl]
    rw [he]
    exact mem_allQueued_setA dq (getDomain url) q url u hl

/-- What `_parse_save_file`'s fold puts into the host queues is exactly the
kept sub-sequence of the stored values, on top of whatever was queued
before. -/
theorem mem_allQueued_parse (vals : List (String × Bool)) :
    ∀ (fr : FrontierSt) (sst : ScraperSt) (u : String),
      (u ∈ allQueued ((vals.foldl parseStep (fr, sst)).1.domainQueues) ↔
        u ∈ allQueued fr.domainQueues ∨ u ∈ keptUrls sst vals) := by
  induction vals with
  | nil => intro fr sst u; simp [keptUrls]
  | cons v rest ih =>
    intro fr sst u
    rcases v with ⟨u0, c⟩
    cases c
    case true =>
      rw [List.foldl_cons, show parseStep (fr, sst) (u0, true) = (fr, sst) from rfl, ih]
      simp [keptUrls]
    case false =>
      rw [List.foldl_cons]
      cases hv : isValidS sst u0 with
      | mk b sst' =>
        cases b
        case false =>
          have hstep : parseStep (fr, sst) (u0, false) = (fr, sst') := by
            simp [parseStep, hv]
          rw [hstep, ih]
          simp [keptUrls, hv]
        case true =>
          have hstep : parseStep (fr, sst) (u0, false)
              = ({ fr with
                   domainQueues := addToDomainQueue fr.domainQueues u0
                   urlsSeen := if normalizeUrl u0 ∈ fr.urlsSeen then fr.urlsSeen
                               else fr.urlsSeen ++ [normalizeUrl u0] }, sst') := by
            simp [parseStep, hv]
          rw [hstep, ih]
          rw [show ({ fr with
                domainQueues := addToDomainQueue fr.domainQueues u0
                urlsSeen := if normalizeUrl u0 ∈ fr.urlsSeen then fr.urlsSeen
                            else fr.urlsSeen ++ [normalizeUrl u0] } : FrontierSt).domainQueues
              = addToDomainQueue fr.domainQueues u0 from rfl]
          rw [mem_allQueued_enq]
          simp only [keptUrls, hv, List.mem_cons]
          constructor
          · intro hx
            rcases hx with (hx | hx) | hx
            · exact Or.inr (by simp [hx])
            · exact Or.inl hx
            · exact Or.inr (by simp [hx])
          · intro hx
            rcases hx with hx | hx
            · exact Or.inl (Or.inr hx)
            · simp at hx
              rcases hx with hx | hx
              · exact Or.inl (Or.inl hx)
              · exact Or.inr hx

/-- A kept URL was stored with `completed = false`. -/
theorem keptUrls_mem_vals (vals : List (String × Bool)) :
    ∀ (sst : ScraperSt) (u : String), u ∈ keptUrls sst vals → (u, false) ∈ vals := by
  induction vals with
  | nil => intro sst u hu; simp [keptUrls] at hu
  | cons v rest ih =>
    intro sst u hu
    rcases v with ⟨u0, c⟩
    cases c
    case true =>
      rw [keptUrls] at hu
      simp only [if_pos] at hu
      exact List.mem_cons_of_mem _ (ih sst u hu)
    case false =>
      rw [keptUrls] at hu
      simp only [if_neg Bool.false_ne_true, Bool.false_eq_true, if_false] at hu
      cases hv : isValidS sst u0 with
      | mk b sst' =>
        rw [hv] at hu
        cases b
        case false => exact List.mem_cons_of_mem _ (ih sst' u hu)
        case true =>
          rcases List.mem_cons.mp hu with h | h
          · subst h; exact List.mem_cons_self _ _
          · exact List.mem_cons_of_mem _ (ih sst' u h)

/-- Claim C2 (confirmed).  Opening the frontier with `restart = false` over a
non-empty save file enqueues exactly the stored `completed = false` URLs
that pass `is_valid` (with the `is_valid` counters threaded in load order),
and — provided the save file does not also store the same URL as pending —
no URL stored with `completed = true` reaches any host queue. -/
theorem c2_restart_roundtrip (sst : ScraperSt) (seeds : List String)
    (save : List (String × (String × Bool))) (v : String)
    (hne : save ≠ [])
    (hv : (v, true) ∈ save.map Prod.snd)
    (hnv : (v, false) ∉ save.map Prod.snd) :
    (∀ u, u ∈ allQueued (frontierInit sst seeds false save).1.domainQueues
        ↔ u ∈ keptUrls sst (save.map Prod.snd))
  ∧ v ∉ allQueued (frontierInit sst seeds false save).1.domainQueues := by
  have hemp : save.isEmpty = false := by
    cases save with
    | nil => exact absurd rfl hne
    | cons p t => rfl
  have hfi : (frontierInit sst seeds false save).1
      = ((save.map Prod.snd).foldl parseStep
          ({ domainQueues := [], lastAccess := [], urlsSeen := [], save := save }, sst)).1 := by
    simp [frontierInit, hemp, parseSaveFile]
  have hall : ∀ u, u ∈ allQueued (frontierInit sst seeds false save).1.domainQueues
      ↔ u ∈ keptUrls sst (save.map Prod.snd) := by
    intro u
    rw [hfi, mem_allQueued_parse]
    simp [allQueued]
  refine ⟨hall, fun hmem => ?_⟩
  exact hnv (keptUrls_mem_vals _ _ _ ((hall v).mp hmem))

/-- Witness for C2 on a concrete three-entry save file: the pending valid
URL is the only one enqueued; the completed one stays out of every queue. -/
theorem c2_restart_roundtrip_witness :
    c2Save ≠ []
  ∧ ("https://ics.uci.edu/b", true) ∈ c2Save.map Prod.snd
  ∧ (("https://ics.uci.edu/b", false) ∉ c2Save.map Prod.snd)
  ∧ ((∀ u, u ∈ allQueued (frontierInit initScraperSt [] false c2Save).1.domainQueues
        ↔ u ∈ keptUrls initScraperSt (c2Save.map Prod.snd))
     ∧ "https://ics.uci.edu/b" ∉
        allQueued (frontierInit initScraperSt [] false c2Save).1.domainQueues) :=
  ⟨by decide, by decide, by decide,
   c2_restart_roundtrip initScraperSt [] c2Save "https://ics.uci.edu/b"
     (by decide) (by decide) (by decide)⟩

/-- Witness for C10 at a concrete malformed URL: `urlparse("http://[bad")`
raises `ValueError` (unmatched bracket) and `is_valid` returns false. -/
theorem c10_isValid_total_witness :
    urlparseE "http://[bad".data = Except.error PyErr.valueError
  ∧ isValid initScraperSt "http://[bad".data = (false, initScraperSt) :=
  (c10_isValid_total initScraperSt "http://[bad".data).2 PyErr.valueError (by rfl)

end Crawler
